import Mathlib

/-!
Verification of the Nano Banana size calculator
(`nano_banana_resizer.py`, class `NanoBananaSizeCalculator`).

The Python source is a pure computation over integer pairs, embedded here
shallowly: bucket lists become `List (Int × Int)`, the squared-distance
scoring, the manual-override band, the dynamic ceiling fallback and the
preset dispatch become the Lean functions below.  `_closest_bucket` raises
`IndexError` on an empty bucket list (it reads `candidates[0]`), so its
embedding returns `Option`.
-/

set_option maxHeartbeats 1000000
set_option maxRecDepth 100000

namespace NanoBanana

/-- Squared Euclidean distance in pixel space, from
`dist_sq = (w_in - w_bucket) ** 2 + (h_in - h_bucket) ** 2`. -/
def distSq (wIn hIn wB hB : Int) : Int :=
  (wIn - wB) ^ 2 + (hIn - hB) ^ 2

/-- `BUCKETS_NB1` (22 entries). -/
def BUCKETS_NB1 : List (Int × Int) := [
  (512, 2048), (576, 1792), (736, 1408), (768, 1344), (800, 1280),
  (832, 1248), (864, 1184), (896, 1152), (928, 1120), (960, 1088),
  (1024, 1024), (1088, 960), (1120, 928), (1152, 896), (1184, 864),
  (1248, 832), (1280, 800), (1344, 768), (1408, 736), (1472, 704),
  (1792, 576), (2048, 512)]

/-- `BUCKETS_NB2_1K` (17 entries). -/
def BUCKETS_NB2_1K : List (Int × Int) := [
  (768, 1344), (800, 1280), (832, 1248), (864, 1184), (896, 1152),
  (928, 1120), (960, 1088), (992, 1056), (1024, 1024), (1056, 992),
  (1088, 960), (1120, 928), (1152, 896), (1184, 864), (1248, 832),
  (1280, 800), (1344, 768)]

/-- `BUCKETS_NB2_2K` (33 entries). -/
def BUCKETS_NB2_2K : List (Int × Int) := [
  (1024, 4096), (1088, 3840), (1152, 3584), (1216, 3328), (1280, 3072),
  (1344, 2816), (1408, 2560), (1472, 2816), (1536, 2688), (1600, 2560),
  (1664, 2496), (1696, 2528), (1728, 2368),
  (1760, 2432), (2432, 1760),
  (1792, 2304), (1856, 2240),
  (1920, 2176), (1984, 2048), (2048, 2048), (2176, 1920), (2240, 1856),
  (2304, 1792), (2368, 1728), (2496, 1664), (2560, 1600), (2688, 1536),
  (2816, 1472), (3072, 1280), (3328, 1216), (3584, 1152), (3840, 1088),
  (4096, 1024)]

/-- `BUCKETS_NB2_4K` (31 entries). -/
def BUCKETS_NB2_4K : List (Int × Int) := [
  (2048, 8192), (2176, 7680), (2304, 7168), (2432, 6656), (2560, 6144),
  (2688, 5632), (2816, 5120), (2944, 5632), (3072, 5376), (3200, 5120),
  (3328, 4992), (3392, 5056), (3456, 4736), (3584, 4608), (3712, 4480),
  (3840, 4352), (3968, 4096), (4096, 4096), (4352, 3840), (4480, 3712),
  (4608, 3584), (4736, 3456), (4992, 3328), (5120, 3200), (5376, 3072),
  (5632, 2944), (6144, 2560), (6656, 2432), (7168, 2304), (7680, 2176),
  (8192, 2048)]

/-- The scored candidate list `[(dist_sq, w_bucket, h_bucket), ...]`
built by the first loop of `_closest_bucket`. -/
def candidates (wIn hIn : Int) (buckets : List (Int × Int)) :
    List (Int × Int × Int) :=
  buckets.map (fun b => (distSq wIn hIn b.1 b.2, b.1, b.2))

/-- `candidates.sort(key=lambda x: x[0]); candidates[0]`: Python's sort is
stable, so the head of the sorted list is the element attaining the minimal
key at the earliest position.  This fold computes exactly that element: it
replaces the accumulator only on a strict decrease of the key. -/
def bestCand : Int × Int × Int → List (Int × Int × Int) → Int × Int × Int
  | b, [] => b
  | b, c :: cs => bestCand (if c.1 < b.1 then c else b) cs

/-- `math.ceil(x / 32) * 32`.  For an integer `x`,
`ceil(x / 32) = floor((x + 31) / 32)`, and `Int` division by the positive
divisor 32 is floor division. -/
def ceil32 (x : Int) : Int :=
  ((x + 31) / 32) * 32

/-- The manual-override ambiguity zone of `_closest_bucket`:
`1650 < w_in < 1750 and 2350 < h_in < 2550` with
`override_dist_sq < 8000` against the fix-up bucket `(1696, 2528)`. -/
abbrev inBand (wIn hIn : Int) : Prop :=
  1650 < wIn ∧ wIn < 1750 ∧ 2350 < hIn ∧ hIn < 2550 ∧
    distSq wIn hIn 1696 2528 < 8000

/-- `_closest_bucket(w_in, h_in, buckets)`.  Returns `none` exactly when
`buckets` is empty (the Python code raises `IndexError` there, at
`candidates[0]`, before any override or fallback check). -/
def closestBucket (wIn hIn : Int) (buckets : List (Int × Int)) :
    Option (Int × Int) :=
  match candidates wIn hIn buckets with
  | [] => none
  | c :: cs =>
    if inBand wIn hIn then
      some (1696, 2528)
    else if 8000 < (bestCand c cs).1 ∧ 20 < buckets.length then
      some (ceil32 wIn, ceil32 hIn)
    else
      some ((bestCand c cs).2.1, (bestCand c cs).2.2)

/-- `charsLead p s` is true when `p` is an initial segment of `s`. -/
def charsLead : List Char → List Char → Bool
  | [], _ => true
  | _ :: _, [] => false
  | a :: as, b :: bs => (a == b) && charsLead as bs

/-- `charsHave p s` is true when `p` occurs contiguously inside `s`. -/
def charsHave (p : List Char) : List Char → Bool
  | [] => charsLead p []
  | c :: cs => charsLead p (c :: cs) || charsHave p cs

/-- Python's `pat in s` substring test on strings. -/
def strHas (s pat : String) : Bool :=
  charsHave pat.toList s.toList

/-- The preset dispatch of `calculate_size`: which bucket list and which
`version_info` label each preset string selects.  Literal translation of the
`if preset == "Nano Banana 1" / elif "1K" in preset / elif "2K" in preset /
else` chain. -/
def pickBuckets (preset : String) : List (Int × Int) × String :=
  if preset == "Nano Banana 1" then (BUCKETS_NB1, "Nano Banana 1")
  else if strHas preset "1K" then (BUCKETS_NB2_1K, "Nano Banana 2 (1K)")
  else if strHas preset "2K" then (BUCKETS_NB2_2K, "Nano Banana 2 (2K)")
  else (BUCKETS_NB2_4K, "Nano Banana 2 (4K)")

/-- `calculate_size(self, image, preset)`, with the image replaced by the
width and height extracted from its shape (`_, h, w, _ = image.shape`).
The returned triple is `(w_out, h_out, version_info)`; the cosmetic `info`
string and the aspect-ratio label output of the source are not modelled
(no claim concerns them).  `none` is unreachable: every preset dispatches
to a non-empty bucket list. -/
def calculate_size (w h : Int) (preset : String) :
    Option (Int × Int × String) :=
  (closestBucket w h (pickBuckets preset).1).map
    (fun r => (r.1, r.2, (pickBuckets preset).2))

/-- Modelled from the spec: the tier auto-selector
`select_tier(input_pixel_count, aspect_ratio) -> TierName` of spec section
4.2 is absent from `src/` (the source file only offers a fixed preset
dropdown); its four bands are taken verbatim from the spec's policy. -/
def select_tier (pixelCount : Int) (aspectRatio : ℚ) : String :=
  if 8000000 ≤ pixelCount then "4K"
  else if 2000000 ≤ pixelCount then
    (if 2.5 < aspectRatio ∨ aspectRatio < 0.4 then "4K" else "2K")
  else if 1000000 ≤ pixelCount then
    (if 2.0 < aspectRatio ∨ aspectRatio < 0.5 then "2K" else "1K")
  else "1K"

/-- The tier ordering of the spec, `"1K" < "2K" < "4K"`, as a rank. -/
def tierRank : String → Nat
  | "4K" => 2
  | "2K" => 1
  | _ => 0

/-! ### Helper lemmas -/

theorem ceil32_le (x : Int) : x ≤ ceil32 x := by
  unfold ceil32
  omega

theorem ceil32_emod (x : Int) : ceil32 x % 32 = 0 := by
  unfold ceil32
  omega

theorem ceil32_pos (x : Int) (hx : 0 < x) : 0 < ceil32 x :=
  lt_of_lt_of_le hx (ceil32_le x)

theorem bestCand_mem (c : Int × Int × Int) (cs : List (Int × Int × Int)) :
    bestCand c cs ∈ c :: cs := by
  induction cs generalizing c with
  | nil => simp [bestCand]
  | cons d ds ih =>
    rw [bestCand]
    by_cases hd : d.1 < c.1
    · rw [if_pos hd]
      rcases List.mem_cons.mp (ih d) with h | h
      · rw [h]; exact List.mem_cons_of_mem c (List.mem_cons_self d ds)
      · exact List.mem_cons_of_mem c (List.mem_cons_of_mem d h)
    · rw [if_neg hd]
      rcases List.mem_cons.mp (ih c) with h | h
      · rw [h]; exact List.mem_cons_self c (d :: ds)
      · exact List.mem_cons_of_mem c (List.mem_cons_of_mem d h)

theorem bestCand_le (c : Int × Int × Int) (cs : List (Int × Int × Int)) :
    ∀ x ∈ c :: cs, (bestCand c cs).1 ≤ x.1 := by
  induction cs generalizing c with
  | nil =>
    intro x hx
    rcases List.mem_cons.mp hx with h | h
    · subst h; exact le_refl _
    · cases h
  | cons d ds ih =>
    intro x hx
    rw [bestCand]
    have hacc1 : (if d.1 < c.1 then d else c).1 ≤ c.1 := by
      by_cases hd : d.1 < c.1
      · rw [if_pos hd]; exact le_of_lt hd
      · rw [if_neg hd]
    have hacc2 : (if d.1 < c.1 then d else c).1 ≤ d.1 := by
      by_cases hd : d.1 < c.1
      · rw [if_pos hd]
      · rw [if_neg hd]; exact not_lt.mp hd
    have hhead := ih (if d.1 < c.1 then d else c) _
      (List.mem_cons_self _ ds)
    rcases List.mem_cons.mp hx with h | h
    · subst h; exact le_trans hhead hacc1
    · rcases List.mem_cons.mp h with h2 | h2
      · subst h2; exact le_trans hhead hacc2
      · exact ih _ x (List.mem_cons_of_mem _ h2)

/-- When the accumulator is already no worse than every later candidate,
the fold keeps it. -/
theorem bestCand_keep (c : Int × Int × Int) (cs : List (Int × Int × Int))
    (h : ∀ x ∈ cs, c.1 ≤ x.1) : bestCand c cs = c := by
  induction cs with
  | nil => rfl
  | cons d ds ih =>
    rw [bestCand, if_neg (not_lt.mpr (h d (List.mem_cons_self d ds)))]
    exact ih fun x hx => h x (List.mem_cons_of_mem d hx)

/-- When position `k` in `cs` strictly beats the accumulator, attains the
minimum over `cs`, and strictly beats every earlier position of `cs`,
the fold lands exactly on it. -/
theorem bestCand_at (cs : List (Int × Int × Int)) (c : Int × Int × Int)
    (k : Nat) (hk : k < cs.length)
    (hlt : (cs.get ⟨k, hk⟩).1 < c.1)
    (hmin : ∀ x ∈ cs, (cs.get ⟨k, hk⟩).1 ≤ x.1)
    (hfirst : ∀ (j : Nat) (hj : j < k),
      (cs.get ⟨k, hk⟩).1 < (cs.get ⟨j, Nat.lt_trans hj hk⟩).1) :
    bestCand c cs = cs.get ⟨k, hk⟩ := by
  induction cs generalizing c k with
  | nil => exact absurd hk (Nat.not_lt_zero k)
  | cons d ds ih =>
    cases k with
    | zero =>
      simp only [List.get] at hlt hmin ⊢
      rw [bestCand, if_pos hlt]
      exact bestCand_keep d ds
        (fun x hx => hmin x (List.mem_cons_of_mem d hx))
    | succ j =>
      simp only [List.get] at hlt hmin hfirst ⊢
      rw [bestCand]
      have hj : j < ds.length := Nat.lt_of_succ_lt_succ hk
      have hd : (ds.get ⟨j, hj⟩).1 < d.1 := by
        have := hfirst 0 (Nat.succ_pos j)
        simpa using this
      refine ih (if d.1 < c.1 then d else c) j hj ?_ ?_ ?_
      · by_cases hc : d.1 < c.1
        · rw [if_pos hc]; exact hd
        · rw [if_neg hc]; exact hlt
      · exact fun x hx => hmin x (List.mem_cons_of_mem d hx)
      · intro i hi
        have := hfirst (i + 1) (Nat.succ_lt_succ hi)
        simpa using this

/-- The fold returns the element of `c :: cs` attaining the minimal key at
the earliest position — exactly `candidates.sort(key)[0]` for a stable
sort. -/
theorem bestCand_first (c : Int × Int × Int) (cs : List (Int × Int × Int))
    (k : Nat) (hk : k < (c :: cs).length)
    (hmin : ∀ x ∈ c :: cs, ((c :: cs).get ⟨k, hk⟩).1 ≤ x.1)
    (hfirst : ∀ (j : Nat) (hj : j < k),
      ((c :: cs).get ⟨k, hk⟩).1 < ((c :: cs).get ⟨j, Nat.lt_trans hj hk⟩).1) :
    bestCand c cs = (c :: cs).get ⟨k, hk⟩ := by
  cases k with
  | zero =>
    simp only [List.get] at hmin ⊢
    exact bestCand_keep c cs (fun x hx => hmin x (List.mem_cons_of_mem c hx))
  | succ j =>
    simp only [List.get] at hmin hfirst ⊢
    have hj : j < cs.length := Nat.lt_of_succ_lt_succ hk
    have hd : (cs.get ⟨j, hj⟩).1 < c.1 := by
      have := hfirst 0 (Nat.succ_pos j)
      simpa using this
    refine bestCand_at cs c j hj hd ?_ ?_
    · exact fun x hx => hmin x (List.mem_cons_of_mem c hx)
    · intro i hi
      have := hfirst (i + 1) (Nat.succ_lt_succ hi)
      simpa using this

/-- `closestBucket` on a non-empty list, with the match reduced. -/
theorem closestBucket_cons (wIn hIn : Int) (b : Int × Int)
    (bs : List (Int × Int)) :
    closestBucket wIn hIn (b :: bs) =
      if inBand wIn hIn then some (1696, 2528)
      else if 8000 < (bestCand (distSq wIn hIn b.1 b.2, b.1, b.2)
          (candidates wIn hIn bs)).1 ∧ 20 < (b :: bs).length then
        some (ceil32 wIn, ceil32 hIn)
      else
        some ((bestCand (distSq wIn hIn b.1 b.2, b.1, b.2)
            (candidates wIn hIn bs)).2.1,
          (bestCand (distSq wIn hIn b.1 b.2, b.1, b.2)
            (candidates wIn hIn bs)).2.2) := rfl

/-- In the override band the resolver returns the fix-up bucket, whatever
the bucket list (as long as it is non-empty). -/
theorem closestBucket_override (wIn hIn : Int) (buckets : List (Int × Int))
    (hne : buckets ≠ []) (hband : inBand wIn hIn) :
    closestBucket wIn hIn buckets = some (1696, 2528) := by
  obtain ⟨b, bs, rfl⟩ := List.exists_cons_of_ne_nil hne
  rw [closestBucket_cons, if_pos hband]

/-- Outside the band, when every bucket is farther than 8000 and the list
is dense, the resolver synthesizes the ceiling pair. -/
theorem closestBucket_fallback (wIn hIn : Int) (buckets : List (Int × Int))
    (hne : buckets ≠ []) (hband : ¬ inBand wIn hIn)
    (hfar : ∀ x ∈ buckets, 8000 < distSq wIn hIn x.1 x.2)
    (hlen : 20 < buckets.length) :
    closestBucket wIn hIn buckets = some (ceil32 wIn, ceil32 hIn) := by
  obtain ⟨b, bs, rfl⟩ := List.exists_cons_of_ne_nil hne
  rw [closestBucket_cons, if_neg hband, if_pos]
  refine ⟨?_, hlen⟩
  have hmem : bestCand (distSq wIn hIn b.1 b.2, b.1, b.2)
      (candidates wIn hIn bs) ∈ candidates wIn hIn (b :: bs) :=
    bestCand_mem _ _
  simp only [candidates] at hmem ⊢
  obtain ⟨x, hx, hfx⟩ := List.mem_map.mp hmem
  rw [← hfx]
  exact hfar x hx

/-- Outside the band, when some bucket is within 8000 or the list is not
dense, the resolver returns a member of the list. -/
theorem closestBucket_nearest (wIn hIn : Int) (buckets : List (Int × Int))
    (hne : buckets ≠ []) (hband : ¬ inBand wIn hIn)
    (hnear : (∃ x ∈ buckets, distSq wIn hIn x.1 x.2 ≤ 8000) ∨
      buckets.length ≤ 20) :
    ∃ r ∈ buckets, closestBucket wIn hIn buckets = some r := by
  obtain ⟨b, bs, rfl⟩ := List.exists_cons_of_ne_nil hne
  have hcond : ¬ (8000 < (bestCand (distSq wIn hIn b.1 b.2, b.1, b.2)
      (candidates wIn hIn bs)).1 ∧ 20 < (b :: bs).length) := by
    rcases hnear with ⟨x, hx, hxle⟩ | hlen
    · intro hc
      have hfx : (distSq wIn hIn x.1 x.2, x.1, x.2) ∈
          candidates wIn hIn (b :: bs) := by
        simp only [candidates]
        exact List.mem_map_of_mem _ hx
      have hle := bestCand_le (distSq wIn hIn b.1 b.2, b.1, b.2)
        (candidates wIn hIn bs) _ hfx
      simp only [] at hle
      omega
    · intro hc
      omega
  rw [closestBucket_cons, if_neg hband, if_neg hcond]
  have hmem : bestCand (distSq wIn hIn b.1 b.2, b.1, b.2)
      (candidates wIn hIn bs) ∈ candidates wIn hIn (b :: bs) :=
    bestCand_mem _ _
  simp only [candidates] at hmem
  obtain ⟨x, hx, hfx⟩ := List.mem_map.mp hmem
  refine ⟨x, hx, ?_⟩
  simp only [candidates]
  rw [← hfx]

/-- Every result of the resolver is the override bucket, the ceiling pair,
or a member of the supplied list. -/
theorem closestBucket_shape (wIn hIn : Int) (buckets : List (Int × Int))
    (hne : buckets ≠ []) :
    ∃ r, closestBucket wIn hIn buckets = some r ∧
      (r = (1696, 2528) ∨ r = (ceil32 wIn, ceil32 hIn) ∨ r ∈ buckets) := by
  by_cases h1 : inBand wIn hIn
  · exact ⟨(1696, 2528), closestBucket_override wIn hIn buckets hne h1,
      Or.inl rfl⟩
  · by_cases h2 : (∀ x ∈ buckets, 8000 < distSq wIn hIn x.1 x.2) ∧
        20 < buckets.length
    · exact ⟨(ceil32 wIn, ceil32 hIn),
        closestBucket_fallback wIn hIn buckets hne h1 h2.1 h2.2,
        Or.inr (Or.inl rfl)⟩
    · have hnear : (∃ x ∈ buckets, distSq wIn hIn x.1 x.2 ≤ 8000) ∨
          buckets.length ≤ 20 := by
        rcases not_and_or.mp h2 with h | h
        · left
          obtain ⟨x, hx, hxd⟩ := not_forall₂.mp h
          exact ⟨x, hx, by omega⟩
        · right
          omega
      obtain ⟨r, hr, hres⟩ := closestBucket_nearest wIn hIn buckets hne h1 hnear
      exact ⟨r, hres, Or.inr (Or.inr hr)⟩

/-- Outside the band and the fallback, the resolver returns the bucket at
the earliest position attaining the minimal squared distance. -/
theorem closestBucket_first_min (wIn hIn : Int) (buckets : List (Int × Int))
    (k : Nat) (hk : k < buckets.length) (hband : ¬ inBand wIn hIn)
    (hmin : ∀ (j : Nat) (hj : j < buckets.length),
      distSq wIn hIn (buckets.get ⟨k, hk⟩).1 (buckets.get ⟨k, hk⟩).2 ≤
        distSq wIn hIn (buckets.get ⟨j, hj⟩).1 (buckets.get ⟨j, hj⟩).2)
    (hfirst : ∀ (j : Nat) (hj : j < k),
      distSq wIn hIn (buckets.get ⟨k, hk⟩).1 (buckets.get ⟨k, hk⟩).2 <
        distSq wIn hIn (buckets.get ⟨j, Nat.lt_trans hj hk⟩).1
          (buckets.get ⟨j, Nat.lt_trans hj hk⟩).2)
    (hnf : distSq wIn hIn (buckets.get ⟨k, hk⟩).1 (buckets.get ⟨k, hk⟩).2 ≤ 8000
      ∨ buckets.length ≤ 20) :
    closestBucket wIn hIn buckets = some (buckets.get ⟨k, hk⟩) := by
  cases buckets with
  | nil => exact absurd hk (Nat.not_lt_zero k)
  | cons b bs =>
    have hk2 : k < (List.map
        (fun p : Int × Int => (distSq wIn hIn p.1 p.2, p.1, p.2))
        (b :: bs)).length := by
      simpa using hk
    have hgetm : ∀ (j : Nat) (hj : j < (b :: bs).length)
        (hj2 : j < (List.map
          (fun p : Int × Int => (distSq wIn hIn p.1 p.2, p.1, p.2))
          (b :: bs)).length),
        (List.map (fun p : Int × Int => (distSq wIn hIn p.1 p.2, p.1, p.2))
          (b :: bs)).get ⟨j, hj2⟩ =
          (distSq wIn hIn ((b :: bs).get ⟨j, hj⟩).1 ((b :: bs).get ⟨j, hj⟩).2,
            ((b :: bs).get ⟨j, hj⟩).1, ((b :: bs).get ⟨j, hj⟩).2) := by
      intro j hj hj2
      rw [List.get_eq_getElem, List.get_eq_getElem, List.getElem_map]
    have hmin2 : ∀ x ∈ List.map
        (fun p : Int × Int => (distSq wIn hIn p.1 p.2, p.1, p.2)) (b :: bs),
        ((List.map (fun p : Int × Int => (distSq wIn hIn p.1 p.2, p.1, p.2))
          (b :: bs)).get ⟨k, hk2⟩).1 ≤ x.1 := by
      intro x hx
      obtain ⟨y, hy, hfy⟩ := List.mem_map.mp hx
      obtain ⟨⟨j, hj⟩, hjy⟩ := List.mem_iff_get.mp hy
      rw [hgetm k hk hk2, ← hfy, ← hjy]
      exact hmin j hj
    have hfirst2 : ∀ (j : Nat) (hj : j < k),
        ((List.map (fun p : Int × Int => (distSq wIn hIn p.1 p.2, p.1, p.2))
          (b :: bs)).get ⟨k, hk2⟩).1 <
        ((List.map (fun p : Int × Int => (distSq wIn hIn p.1 p.2, p.1, p.2))
          (b :: bs)).get ⟨j, Nat.lt_trans hj hk2⟩).1 := by
      intro j hj
      rw [hgetm k hk hk2, hgetm j (Nat.lt_trans hj hk) (Nat.lt_trans hj hk2)]
      exact hfirst j hj
    have hbest := bestCand_first (distSq wIn hIn b.1 b.2, b.1, b.2)
      (candidates wIn hIn bs) k hk2 hmin2 hfirst2
    have hbest2 : bestCand (distSq wIn hIn b.1 b.2, b.1, b.2)
        (candidates wIn hIn bs) =
        (distSq wIn hIn ((b :: bs).get ⟨k, hk⟩).1 ((b :: bs).get ⟨k, hk⟩).2,
          ((b :: bs).get ⟨k, hk⟩).1, ((b :: bs).get ⟨k, hk⟩).2) := by
      rw [hbest]
      exact hgetm k hk hk2
    have hcond : ¬ (8000 <
        (distSq wIn hIn ((b :: bs).get ⟨k, hk⟩).1 ((b :: bs).get ⟨k, hk⟩).2,
          ((b :: bs).get ⟨k, hk⟩).1, ((b :: bs).get ⟨k, hk⟩).2).1 ∧
        20 < (b :: bs).length) := by
      rcases hnf with h | h
      · exact fun hc => absurd hc.1 (not_lt.mpr h)
      · exact fun hc => absurd hc.2 (not_lt.mpr h)
    rw [closestBucket_cons, if_neg hband, hbest2, if_neg hcond]

/-! ### Claims -/

/-- C1 counterexample: the claim's 2000 threshold is not the code's.  For
input (2098, 2048) against the 2K tier, the minimum squared distance to
every bucket exceeds 2000 and the list is dense (33 > 20 entries), yet the
resolver returns the fixed bucket (2048, 2048) — distance 2500 ≤ 8000 —
not the 32-rounded-up pair (2112, 2048). -/
theorem C1_counterexample :
    (∀ x ∈ BUCKETS_NB2_2K, 2000 < distSq 2098 2048 x.1 x.2) ∧
    20 < BUCKETS_NB2_2K.length ∧
    closestBucket 2098 2048 BUCKETS_NB2_2K = some (2048, 2048) ∧
    (2048, 2048) ≠ (ceil32 2098, ceil32 2048) := by decide

/-- C1 (amended): outside the manual-override band, the dynamic-fallback
path triggers exactly when the minimum squared distance to every bucket of
the selected tier exceeds 8000 (not 2000) and the tier's list has more
than 20 entries; then the result is the 32-rounded-up pair, and otherwise
the result is one of the tier's buckets. -/
theorem C1_fallback_characterization (wIn hIn : Int)
    (buckets : List (Int × Int)) (hne : buckets ≠ [])
    (hband : ¬ inBand wIn hIn) :
    ((∀ x ∈ buckets, 8000 < distSq wIn hIn x.1 x.2) ∧ 20 < buckets.length →
      closestBucket wIn hIn buckets = some (ceil32 wIn, ceil32 hIn)) ∧
    (((∃ x ∈ buckets, distSq wIn hIn x.1 x.2 ≤ 8000) ∨ buckets.length ≤ 20) →
      ∃ r ∈ buckets, closestBucket wIn hIn buckets = some r) :=
  ⟨fun h => closestBucket_fallback wIn hIn buckets hne hband h.1 h.2,
   fun h => closestBucket_nearest wIn hIn buckets hne hband h⟩

/-- C1 witness: input (10000, 10000) against the 2K tier satisfies the
amended trigger and yields the 32-rounded-up pair. -/
theorem C1_witness :
    closestBucket 10000 10000 BUCKETS_NB2_2K =
      some (ceil32 10000, ceil32 10000) :=
  (C1_fallback_characterization 10000 10000 BUCKETS_NB2_2K (by decide)
    (by decide)).1 ⟨by decide, by decide⟩

/-- C2 counterexample: the legacy 22-entry list is itself "dense" by the
code's `> 20` test; input (10000, 10000) resolved against it takes the
dynamic fallback and returns the synthesized pair (10016, 10016), which is
neither one of its buckets nor the override bucket. -/
theorem C2_counterexample :
    BUCKETS_NB1.length = 22 ∧
    closestBucket 10000 10000 BUCKETS_NB1 = some (10016, 10016) ∧
    (10016, 10016) ∉ BUCKETS_NB1 ∧
    ((10016, 10016) : Int × Int) ≠ (1696, 2528) := by decide

/-- C2 (amended): the dynamic fallback is never taken for the 1K list,
whose 17 entries fail the `> 20` density test — every resolution against
it yields one of its fixed buckets or the manual-override bucket; the
legacy 22-entry list, by contrast, does pass the density test. -/
theorem C2_no_fallback_1K (wIn hIn : Int) :
    BUCKETS_NB2_1K.length ≤ 20 ∧ 20 < BUCKETS_NB1.length ∧
    ∃ r, closestBucket wIn hIn BUCKETS_NB2_1K = some r ∧
      (r ∈ BUCKETS_NB2_1K ∨ r = (1696, 2528)) := by
  refine ⟨by decide, by decide, ?_⟩
  by_cases hb : inBand wIn hIn
  · exact ⟨(1696, 2528),
      closestBucket_override wIn hIn _ (by decide) hb, Or.inr rfl⟩
  · obtain ⟨r, hr, hres⟩ := closestBucket_nearest wIn hIn BUCKETS_NB2_1K
      (by decide) hb (Or.inr (by decide))
    exact ⟨r, hres, Or.inl hr⟩

/-- C3: for every positive input and each of the four catalog bucket
lists, the resolver returns a pair that is positive and 32-aligned in both
dimensions. -/
theorem C3_total_32_aligned (wIn hIn : Int) (hw : 0 < wIn) (hh : 0 < hIn)
    (B : List (Int × Int))
    (hB : B ∈ [BUCKETS_NB1, BUCKETS_NB2_1K, BUCKETS_NB2_2K, BUCKETS_NB2_4K]) :
    ∃ r, closestBucket wIn hIn B = some r ∧
      0 < r.1 ∧ 0 < r.2 ∧ r.1 % 32 = 0 ∧ r.2 % 32 = 0 := by
  have hgood : B ≠ [] ∧
      ∀ x ∈ B, 0 < x.1 ∧ 0 < x.2 ∧ x.1 % 32 = 0 ∧ x.2 % 32 = 0 := by
    fin_cases hB <;> exact ⟨by decide, by decide⟩
  obtain ⟨r, hres, hr⟩ := closestBucket_shape wIn hIn B hgood.1
  refine ⟨r, hres, ?_⟩
  rcases hr with h | h | h
  · subst h
    exact ⟨by decide, by decide, by decide, by decide⟩
  · subst h
    exact ⟨ceil32_pos wIn hw, ceil32_pos hIn hh,
      ceil32_emod wIn, ceil32_emod hIn⟩
  · exact hgood.2 r h

/-- C3 witness at the tiny input (5, 7) against the legacy list. -/
theorem C3_witness :
    ∃ r, closestBucket 5 7 BUCKETS_NB1 = some r ∧
      0 < r.1 ∧ 0 < r.2 ∧ r.1 % 32 = 0 ∧ r.2 % 32 = 0 :=
  C3_total_32_aligned 5 7 (by decide) (by decide) BUCKETS_NB1
    (List.Mem.head _)

/-- C4: whenever the dynamic-fallback path triggers, the output dominates
the input in both dimensions (never crops) and is 32-aligned. -/
theorem C4_fallback_no_crop (wIn hIn : Int) (hw : 0 < wIn) (hh : 0 < hIn)
    (buckets : List (Int × Int)) (hne : buckets ≠ [])
    (hband : ¬ inBand wIn hIn)
    (hfar : ∀ x ∈ buckets, 8000 < distSq wIn hIn x.1 x.2)
    (hlen : 20 < buckets.length) :
    ∃ r, closestBucket wIn hIn buckets = some r ∧
      wIn ≤ r.1 ∧ hIn ≤ r.2 ∧ r.1 % 32 = 0 ∧ r.2 % 32 = 0 :=
  ⟨(ceil32 wIn, ceil32 hIn),
    closestBucket_fallback wIn hIn buckets hne hband hfar hlen,
    ceil32_le wIn, ceil32_le hIn, ceil32_emod wIn, ceil32_emod hIn⟩

/-- C4 witness: input (12345, 6789) against the 4K tier takes the fallback
and its output (12352, 6816) dominates the input. -/
theorem C4_witness :
    ∃ r, closestBucket 12345 6789 BUCKETS_NB2_4K = some r ∧
      (12345 : Int) ≤ r.1 ∧ (6789 : Int) ≤ r.2 ∧
      r.1 % 32 = 0 ∧ r.2 % 32 = 0 :=
  C4_fallback_no_crop 12345 6789 (by decide) (by decide) BUCKETS_NB2_4K
    (by decide) (by decide) (by decide) (by decide)

/-- C5: the documented problem input (1704, 2461) against the 2K tier lies
in the manual-override band and resolves to the designated bucket
(1696, 2528), a member of that tier. -/
theorem C5_problem_case :
    closestBucket 1704 2461 BUCKETS_NB2_2K = some (1696, 2528) ∧
    inBand 1704 2461 ∧ (1696, 2528) ∈ BUCKETS_NB2_2K := by decide

/-- C6: when the nearest-match stage decides the result (no override band,
no fallback) and two or more buckets attain the minimal squared distance,
the resolver returns the first such bucket in list order: the bucket at
position `k`, which attains the minimum while all earlier positions are
strictly worse. -/
theorem C6_tie_first (wIn hIn : Int) (buckets : List (Int × Int))
    (k : Nat) (hk : k < buckets.length) (hband : ¬ inBand wIn hIn)
    (hmin : ∀ (j : Nat) (hj : j < buckets.length),
      distSq wIn hIn (buckets.get ⟨k, hk⟩).1 (buckets.get ⟨k, hk⟩).2 ≤
        distSq wIn hIn (buckets.get ⟨j, hj⟩).1 (buckets.get ⟨j, hj⟩).2)
    (hfirst : ∀ (j : Nat) (hj : j < k),
      distSq wIn hIn (buckets.get ⟨k, hk⟩).1 (buckets.get ⟨k, hk⟩).2 <
        distSq wIn hIn (buckets.get ⟨j, Nat.lt_trans hj hk⟩).1
          (buckets.get ⟨j, Nat.lt_trans hj hk⟩).2)
    (htie : ∃ (j : Nat) (hj : j < buckets.length), j ≠ k ∧
      distSq wIn hIn (buckets.get ⟨j, hj⟩).1 (buckets.get ⟨j, hj⟩).2 =
        distSq wIn hIn (buckets.get ⟨k, hk⟩).1 (buckets.get ⟨k, hk⟩).2)
    (hnf : distSq wIn hIn (buckets.get ⟨k, hk⟩).1 (buckets.get ⟨k, hk⟩).2
        ≤ 8000 ∨ buckets.length ≤ 20) :
    closestBucket wIn hIn buckets = some (buckets.get ⟨k, hk⟩) :=
  closestBucket_first_min wIn hIn buckets k hk hband hmin hfirst hnf

/-- C6 witness: input (912, 1136) is equidistant (512) from the legacy
buckets (896, 1152) at position 7 and (928, 1120) at position 8; the
resolver returns the earlier one. -/
theorem C6_witness :
    closestBucket 912 1136 BUCKETS_NB1 = some (896, 1152) :=
  C6_tie_first 912 1136 BUCKETS_NB1 7 (by decide) (by decide)
    (by decide) (by decide) ⟨8, by decide, by decide, by decide⟩ (by decide)

/-- C7 counterexample: an unrecognized preset does not fail with any
error; it falls through to the 4K branch and produces a normal result. -/
theorem C7_counterexample :
    calculate_size 1024 1024 "Mystery Tier" =
      some (1024, 1024, "Nano Banana 2 (4K)") := by decide

/-- C7 (amended): the code has no error path for tier selection: every
preset other than "Nano Banana 1" and without "1K" or "2K" as a substring
dispatches to the 4K bucket list (the final `else`) and returns a result. -/
theorem C7_unknown_preset_4K (w h : Int) (preset : String)
    (h1 : (preset == "Nano Banana 1") = false)
    (h2 : strHas preset "1K" = false)
    (h3 : strHas preset "2K" = false) :
    calculate_size w h preset =
      (closestBucket w h BUCKETS_NB2_4K).map
        (fun r => (r.1, r.2, "Nano Banana 2 (4K)")) ∧
    ∃ r, calculate_size w h preset = some r := by
  have hpick : pickBuckets preset = (BUCKETS_NB2_4K, "Nano Banana 2 (4K)") := by
    simp [pickBuckets, h1, h2, h3]
  constructor
  · simp [calculate_size, hpick]
  · obtain ⟨r, hres, _⟩ := closestBucket_shape w h BUCKETS_NB2_4K (by decide)
    exact ⟨(r.1, r.2, "Nano Banana 2 (4K)"),
      by simp [calculate_size, hpick, hres]⟩

/-- C7 witness at the unknown preset "Bogus". -/
theorem C7_witness :
    calculate_size 512 512 "Bogus" =
      (closestBucket 512 512 BUCKETS_NB2_4K).map
        (fun r => (r.1, r.2, "Nano Banana 2 (4K)")) ∧
    ∃ r, calculate_size 512 512 "Bogus" = some r :=
  C7_unknown_preset_4K 512 512 "Bogus" (by decide) (by decide) (by decide)

/-- C8 counterexample: the degenerate input (0, 0) is not rejected; it
flows through the 2K bucket path, triggers the dynamic fallback and yields
the degenerate result (0, 0). -/
theorem C8_counterexample :
    calculate_size 0 0 "Nano Banana 2 (2K)" =
      some (0, 0, "Nano Banana 2 (2K)") := by decide

/-- C8 (amended): the resolver rejects nothing: for every request with a
zero or negative dimension (and in fact for every input) and every preset
it still produces a result — the source defines no DegenerateInputError
and performs no input validation. -/
theorem C8_no_rejection (w h : Int) (preset : String)
    (hdeg : w ≤ 0 ∨ h ≤ 0) :
    ∃ r, calculate_size w h preset = some r := by
  have hne : (pickBuckets preset).1 ≠ [] := by
    unfold pickBuckets
    split_ifs <;> decide
  obtain ⟨r, hres, _⟩ := closestBucket_shape w h (pickBuckets preset).1 hne
  exact ⟨(r.1, r.2, (pickBuckets preset).2), by simp [calculate_size, hres]⟩

/-- C8 witness at width 0, height -5. -/
theorem C8_witness : ∃ r, calculate_size 0 (-5) "Auto" = some r :=
  C8_no_rejection 0 (-5) "Auto" (Or.inl (by decide))

/-- C9: the spec-modelled tier auto-selector is monotone in pixel count
for a fixed aspect ratio, under the ordering 1K < 2K < 4K (the four bands
with inclusive lower boundaries are `select_tier`'s definition). -/
theorem C9_select_tier_monotone (p q : Int) (ar : ℚ)
    (hp : 0 < p) (hpq : p ≤ q) (har : 0 < ar) :
    tierRank (select_tier p ar) ≤ tierRank (select_tier q ar) := by
  unfold select_tier
  split_ifs <;> first | decide | omega

/-- C9 witness: 500000 pixels select "1K", 9000000 select "4K". -/
theorem C9_witness :
    tierRank (select_tier 500000 1) ≤ tierRank (select_tier 9000000 1) :=
  C9_select_tier_monotone 500000 9000000 1 (by decide) (by decide)
    (by decide)

/-- C10: the manual-override band applies to every non-empty bucket list
passed to the resolver: any in-band input resolves to (1696, 2528), even
when that pair is not a member of the supplied list. -/
theorem C10_override_any_list (wIn hIn : Int) (buckets : List (Int × Int))
    (hne : buckets ≠ [])
    (h1 : 1650 < wIn) (h2 : wIn < 1750) (h3 : 2350 < hIn) (h4 : hIn < 2550)
    (h5 : distSq wIn hIn 1696 2528 < 8000) :
    closestBucket wIn hIn buckets = some (1696, 2528) :=
  closestBucket_override wIn hIn buckets hne ⟨h1, h2, h3, h4, h5⟩

/-- C10 witness: the in-band input (1700, 2450) resolves to (1696, 2528)
against the 1K list, which does not contain that bucket. -/
theorem C10_witness :
    closestBucket 1700 2450 BUCKETS_NB2_1K = some (1696, 2528) ∧
    (1696, 2528) ∉ BUCKETS_NB2_1K :=
  ⟨C10_override_any_list 1700 2450 BUCKETS_NB2_1K (by decide) (by decide)
    (by decide) (by decide) (by decide) (by decide), by decide⟩

end NanoBanana
